import Mathlib

/-! Locale fan-out of `gatsby-node.js`.

A shallow embedding of the two build hooks of `src/gatsby-node.js` that carry
logic, `onCreatePage` (lines 115-159) and `createPages` (lines 64-113), and the
properties of them that the specification states.

Modelling conventions:

* JavaScript values are the inductive type `JsVal`.  Numbers are rationals (every
  finite double is one); `NaN` and the infinities are not represented.
* A plain object is its list of own properties in insertion order (`Obj`).
  `Obj.get` is property lookup (`undefined` when the key is absent) and `Obj.set`
  is what a later key of an object literal does to the properties spread before
  it: the value is replaced in place, or the property is appended.  Inherited
  properties and the ordering rule for integer-like keys are not modelled; the
  statements below read objects through `Obj.get` only.
* `deletePage`, `createPage`, `console.log` and the page-creation helpers are
  calls out of the file; a run of a hook is the list of these calls, in order.
* `new Date().toISOString()` reads a clock: `clock k` is the string returned by
  the `k`-th reading of a run.
* `contentfulLocale`, `defaultLocale` and `supportedLanguages` come from
  `buildHelpers/i18n`, which is not part of the sources; they are parameters.
-/

namespace GatsbyNode

/-- JavaScript values that occur in page descriptors and query results. -/
inductive JsVal where
  | undefined : JsVal
  | null : JsVal
  | bool (b : Bool) : JsVal
  | num (q : ℚ) : JsVal
  | str (s : String) : JsVal
  | arr (items : List JsVal) : JsVal
  | obj (props : List (String × JsVal)) : JsVal

/-- Own properties of a plain object, in insertion order. -/
abbrev Obj := List (String × JsVal)

/-- Property read `o[key]` on a plain object: `undefined` when `key` is absent. -/
def Obj.get : Obj → String → JsVal
  | [], _ => JsVal.undefined
  | (k, v) :: rest, key => if k = key then v else Obj.get rest key

/-- Effect of a property `key: v` written in an object literal after the
properties already collected: an existing property keeps its position and takes
the new value, a new property goes last. -/
def Obj.set : Obj → String → JsVal → Obj
  | [], key, v => [(key, v)]
  | (k, old) :: rest, key, v =>
    if k = key then (k, v) :: rest else (k, old) :: Obj.set rest key v

/-- JavaScript truthiness, as tested by `!x` and `if (x)`. -/
def JsVal.truthy : JsVal → Bool
  | JsVal.undefined => false
  | JsVal.null => false
  | JsVal.bool b => b
  | JsVal.num q => decide (q ≠ 0)
  | JsVal.str s => decide (s ≠ "")
  | JsVal.arr _ => true
  | JsVal.obj _ => true

/-- Page descriptor.  `path` and `context` are the two properties the hook
reads and overrides; `rest` holds every other property (`component`, ...). -/
structure Page where
  path : String
  context : Obj
  rest : Obj

/-- Values imported from `buildHelpers/i18n` (lines 27-31). -/
structure I18nConfig where
  contentfulLocale : Obj
  defaultLocale : String
  supportedLanguages : List String

/-- Calls made on `actions` by `onCreatePage`. -/
inductive Action where
  | deletePage (page : Page) : Action
  | createPage (page : Page) : Action

/-- State threaded through a run of `onCreatePage`: the calls made so far and
the number of clock readings made so far. -/
structure World where
  actions : List Action
  ticks : Nat

/-- Call `deletePage(page)`. -/
def deletePage (page : Page) (w : World) : World :=
  { w with actions := w.actions ++ [Action.deletePage page] }

/-- Call `createPage(page)`. -/
def createPage (page : Page) (w : World) : World :=
  { w with actions := w.actions ++ [Action.createPage page] }

/-- Evaluate `new Date().toISOString()`. -/
def newDateISOString (clock : Nat → String) (w : World) : String × World :=
  (clock w.ticks, { w with ticks := w.ticks + 1 })

/-- Run `xs.forEach(f)` with the state threaded through the calls of `f`. -/
def forEach {α : Type} (xs : List α) (f : α → World → World) (w : World) : World :=
  xs.foldl (fun acc x => f x acc) w

/-- Object literal with the properties `locale` and `path` (lines 132-135 and
151-154). -/
def alternateUrl (locale path : String) : JsVal :=
  JsVal.obj [("locale", JsVal.str locale), ("path", JsVal.str path)]

/-- Template literal of lines 134, 141 and 153: a slash, the locale, the path. -/
def localePath (l path : String) : String :=
  "/" ++ l ++ path

/-- Argument of the `createPage` call of lines 122-137; `now` is the value of
`new Date().toISOString()` on line 128.  The context is a fresh object literal
with five properties. -/
def defaultPage (cfg : I18nConfig) (page : Page) (now : String) : Page :=
  { page with
    context :=
      [ ("locale", JsVal.str cfg.defaultLocale),
        ("urlPath", JsVal.str page.path),
        ("contentfulLocale", cfg.contentfulLocale.get cfg.defaultLocale),
        ("lastModified", JsVal.str now),
        ("alternateUrls",
          JsVal.arr
            ((cfg.supportedLanguages.filter (fun l => decide (l ≠ cfg.defaultLocale))).map
              (fun l => alternateUrl l (localePath l page.path)))) ] }

/-- Argument of the `createPage` call of lines 139-156; `now` is the value of
`new Date().toISOString()` on line 147.  The context literal starts with the
spread of `page.context`. -/
def localePage (cfg : I18nConfig) (page : Page) (locale now : String) : Page :=
  { page with
    path := localePath locale page.path
    context :=
      ((((page.context.set "locale" (JsVal.str locale)).set
            "urlPath" (JsVal.str page.path)).set
          "contentfulLocale" (cfg.contentfulLocale.get locale)).set
        "lastModified" (JsVal.str now)).set
      "alternateUrls"
        (JsVal.arr
          ((cfg.supportedLanguages.filter (fun l => decide (l ≠ locale))).map
            (fun l =>
              alternateUrl l
                (if l = cfg.defaultLocale then page.path else localePath l page.path)))) }

/-- The `createPage` call of lines 122-137. -/
def createDefaultPage (cfg : I18nConfig) (clock : Nat → String) (page : Page)
    (w : World) : World :=
  let r := newDateISOString clock w
  createPage (defaultPage cfg page r.1) r.2

/-- The callback of `supportedLanguages.forEach` (lines 138-157). -/
def createLocalePage (cfg : I18nConfig) (clock : Nat → String) (page : Page)
    (locale : String) (w : World) : World :=
  let r := newDateISOString clock w
  createPage (localePage cfg page locale r.1) r.2

/-- The hook `exports.onCreatePage` (lines 115-159). -/
def onCreatePage (cfg : I18nConfig) (clock : Nat → String) (page : Page)
    (w : World) : World :=
  if !(page.context.get "locale").truthy then
    let w1 := deletePage page w
    let w2 := createDefaultPage cfg clock page w1
    forEach cfg.supportedLanguages (createLocalePage cfg clock page) w2
  else
    w

/-- Calls made by one invocation of the hook, in order. -/
def emitted (cfg : I18nConfig) (clock : Nat → String) (page : Page) : List Action :=
  (onCreatePage cfg clock page { actions := [], ticks := 0 }).actions

/-- Arguments of the `createPage` calls in a list of calls, in order. -/
def createdPages : List Action → List Page
  | [] => []
  | Action.createPage p :: rest => p :: createdPages rest
  | Action.deletePage _ :: rest => createdPages rest

/-- Arguments of the `deletePage` calls in a list of calls, in order. -/
def deletedPages : List Action → List Page
  | [] => []
  | Action.deletePage p :: rest => p :: deletedPages rest
  | Action.createPage _ :: rest => deletedPages rest

/-- Pages created by one invocation of the hook, in order. -/
def created (cfg : I18nConfig) (clock : Nat → String) (page : Page) : List Page :=
  createdPages (emitted cfg clock page)

/-- Value of `page.context.locale`. -/
def Page.locale (q : Page) : JsVal :=
  q.context.get "locale"

/-- Value of `page.context.alternateUrls`. -/
def Page.alternateUrls (q : Page) : JsVal :=
  q.context.get "alternateUrls"

/-- The pages handed to `createPage` by the `forEach` of line 138 on the
locales `ls` when `k` clock readings precede it. -/
def localePages (cfg : I18nConfig) (clock : Nat → String) (page : Page) :
    Nat → List String → List Page
  | _, [] => []
  | k, l :: ls => localePage cfg page l (clock k) :: localePages cfg clock page (k + 1) ls

/-- Page-creation helpers imported on lines 6-26. -/
inductive Helper where
  | createDocsPages
  | createMdxPages
  | createContentfulPages
  | createContentfulBlog
  | createContentfulNewsletter
  | createProjectDirectory

/-- Exception raised while a hook runs: a thrown value, or the `TypeError` of a
property read on `undefined` or `null`. -/
inductive Thrown where
  | value (v : JsVal) : Thrown
  | typeError : Thrown

/-- Calls made by `createPages`: `console.log(v)` and the call of a helper, the
latter recorded with the data it is handed besides `actions`. -/
inductive Event where
  | consoleLog (v : JsVal) : Event
  | helperCall (helper : Helper) (arg : JsVal) : Event

/-- How the promise returned by the async function `createPages` settles. -/
inductive Settled where
  | resolved : Settled
  | rejected (reason : Thrown) : Settled

/-- Value of `await graphql(...)` (line 65): the properties `errors` and `data`. -/
structure QueryResult where
  errors : JsVal
  data : JsVal

/-- Property read `v.key` for the keys `docs` and `edges` of line 96: a
`TypeError` on `undefined` and `null`, the own property of an object, and
`undefined` on the other values (which have no built-in property of these
names). -/
def JsVal.prop : JsVal → String → Except Thrown JsVal
  | JsVal.undefined, _ => Except.error Thrown.typeError
  | JsVal.null, _ => Except.error Thrown.typeError
  | JsVal.obj props, key => Except.ok (Obj.get props key)
  | _, _ => Except.ok JsVal.undefined

/-- The hook `exports.createPages` (lines 64-113) from the value `result` of the
awaited query on.  `runHelper h arg` is the exception the imported helper `h`
raises on `arg`, if any.  The statements of lines 100-112 follow the `return;`
of line 98 and are never reached. -/
def createPages (runHelper : Helper → JsVal → Option Thrown) (result : QueryResult) :
    List Event × Settled :=
  if result.errors.truthy then
    ([Event.consoleLog result.errors], Settled.rejected (Thrown.value result.errors))
  else
    match result.data.prop "docs" with
    | Except.error e => ([], Settled.rejected e)
    | Except.ok connection =>
      match connection.prop "edges" with
      | Except.error e => ([], Settled.rejected e)
      | Except.ok docs =>
        match runHelper Helper.createDocsPages docs with
        | some e => ([Event.helperCall Helper.createDocsPages docs], Settled.rejected e)
        | none => ([Event.helperCall Helper.createDocsPages docs], Settled.resolved)

/-- The configuration of the specification's example: `supportedLanguages =
["en", "fr"]`, `defaultLocale = "en"`. -/
def exampleConfig : I18nConfig :=
  { contentfulLocale := [("en", JsVal.str "en-US"), ("fr", JsVal.str "fr-FR")]
    defaultLocale := "en"
    supportedLanguages := ["en", "fr"] }

/-- The page of the specification's example: path `/about`, empty context. -/
def examplePage : Page :=
  { path := "/about", context := [], rest := [("component", JsVal.str "about.js")] }

/-- A page that a locale-aware generator produced: `context.locale` is `"fr"`. -/
def localisedPage : Page :=
  { path := "/fr/blog", context := [("locale", JsVal.str "fr")], rest := [] }

/-- A configuration whose `supportedLanguages` does not list the default
locale. -/
def frenchOnlyConfig : I18nConfig :=
  { contentfulLocale := [("en", JsVal.str "en-US"), ("fr", JsVal.str "fr-FR")]
    defaultLocale := "en"
    supportedLanguages := ["fr"] }

/-- A page created upstream with a context of its own and no locale. -/
def contextPage : Page :=
  { path := "/about"
    context := [("layout", JsVal.str "wide")]
    rest := [("component", JsVal.str "about.js")] }

/-- A query result that carries errors. -/
def failedResult : QueryResult :=
  { errors := JsVal.arr [JsVal.str "Cannot query field"]
    data := JsVal.undefined }

/-- A query result without errors whose `data.docs.edges` is an empty array. -/
def emptyDocsResult : QueryResult :=
  { errors := JsVal.undefined
    data := JsVal.obj [("docs", JsVal.obj [("edges", JsVal.arr [])])] }

/-- Helpers that never raise. -/
def quietHelpers : Helper → JsVal → Option Thrown :=
  fun _ _ => none

/-- A clock that returns the same instant at every reading. -/
def exampleClock : Nat → String :=
  fun _ => "2020-01-01T00:00:00.000Z"

/-! ## Objects and strings -/

theorem Obj.get_set_same (o : Obj) (key : String) (v : JsVal) :
    (o.set key v).get key = v := by
  induction o with
  | nil => simp [Obj.set, Obj.get]
  | cons kv rest ih =>
    obtain ⟨k, old⟩ := kv
    by_cases hk : k = key
    · simp [Obj.set, Obj.get, hk]
    · simp [Obj.set, Obj.get, hk, ih]

theorem Obj.get_set_other (o : Obj) (key other : String) (v : JsVal) (h : key ≠ other) :
    (o.set key v).get other = o.get other := by
  induction o with
  | nil => simp [Obj.set, Obj.get, h]
  | cons kv rest ih =>
    obtain ⟨k, old⟩ := kv
    by_cases hk : k = key
    · subst hk
      simp [Obj.set, Obj.get, h]
    · by_cases ho : k = other
      · subst ho
        simp [Obj.set, Obj.get, hk]
      · simp [Obj.set, Obj.get, hk, ho, ih]

theorem localePath_injective (a b path : String) (h : localePath a path = localePath b path) :
    a = b := by
  unfold localePath at h
  have h2 := congrArg String.data h
  simp only [String.data_append] at h2
  exact String.ext (List.append_cancel_left (List.append_cancel_right h2))

theorem localePath_ne_self (l path : String) : localePath l path ≠ path := by
  intro h
  have h2 := congrArg String.length h
  simp [localePath, String.length_append] at h2
  exact absurd h2.1 (by decide)

theorem alternateUrl_injective (e f : String × String)
    (h : alternateUrl e.1 e.2 = alternateUrl f.1 f.2) : e = f := by
  obtain ⟨a, b⟩ := e
  obtain ⟨c, d⟩ := f
  simp [alternateUrl] at h
  simp [h.1, h.2]

/-! ## The calls of one run -/

theorem forEach_createLocalePage (cfg : I18nConfig) (clock : Nat → String) (page : Page)
    (ls : List String) (w : World) :
    forEach ls (createLocalePage cfg clock page) w =
      { actions := w.actions ++ (localePages cfg clock page w.ticks ls).map Action.createPage
        ticks := w.ticks + ls.length } := by
  induction ls generalizing w with
  | nil => simp [forEach, localePages]
  | cons l ls ih =>
    have step : forEach (l :: ls) (createLocalePage cfg clock page) w =
        forEach ls (createLocalePage cfg clock page) (createLocalePage cfg clock page l w) := rfl
    rw [step, ih]
    simp [createLocalePage, createPage, newDateISOString, localePages]
    omega

theorem emitted_of_no_locale (cfg : I18nConfig) (clock : Nat → String) (page : Page)
    (h : (page.context.get "locale").truthy = false) :
    emitted cfg clock page =
      Action.deletePage page :: Action.createPage (defaultPage cfg page (clock 0)) ::
        (localePages cfg clock page 1 cfg.supportedLanguages).map Action.createPage := by
  simp [emitted, onCreatePage, h, forEach_createLocalePage, createDefaultPage, createPage,
    deletePage, newDateISOString]

theorem emitted_of_locale (cfg : I18nConfig) (clock : Nat → String) (page : Page)
    (h : (page.context.get "locale").truthy = true) :
    emitted cfg clock page = [] := by
  simp [emitted, onCreatePage, h]

theorem createdPages_map_createPage (ps : List Page) :
    createdPages (ps.map Action.createPage) = ps := by
  induction ps with
  | nil => rfl
  | cons p ps ih => simp [createdPages, ih]

theorem deletedPages_map_createPage (ps : List Page) :
    deletedPages (ps.map Action.createPage) = [] := by
  induction ps with
  | nil => rfl
  | cons p ps ih => simp [deletedPages, ih]

theorem created_of_no_locale (cfg : I18nConfig) (clock : Nat → String) (page : Page)
    (h : (page.context.get "locale").truthy = false) :
    created cfg clock page =
      defaultPage cfg page (clock 0) :: localePages cfg clock page 1 cfg.supportedLanguages := by
  simp [created, emitted_of_no_locale cfg clock page h, createdPages,
    createdPages_map_createPage]

theorem localePages_length (cfg : I18nConfig) (clock : Nat → String) (page : Page)
    (k : Nat) (ls : List String) : (localePages cfg clock page k ls).length = ls.length := by
  induction ls generalizing k with
  | nil => rfl
  | cons l ls ih => simp [localePages, ih]

theorem localePages_path (cfg : I18nConfig) (clock : Nat → String) (page : Page)
    (k : Nat) (ls : List String) :
    (localePages cfg clock page k ls).map Page.path = ls.map (fun l => localePath l page.path) := by
  induction ls generalizing k with
  | nil => rfl
  | cons l ls ih => simp [localePages, ih, localePage]

theorem localePage_locale (cfg : I18nConfig) (page : Page) (l now : String) :
    (localePage cfg page l now).locale = JsVal.str l := by
  simp [Page.locale, localePage, Obj.get_set_other, Obj.get_set_same]

theorem localePage_alternateUrls (cfg : I18nConfig) (page : Page) (l now : String) :
    (localePage cfg page l now).alternateUrls =
      JsVal.arr
        (((cfg.supportedLanguages.filter (fun o => decide (o ≠ l))).map
          (fun o => (o, if o = cfg.defaultLocale then page.path else localePath o page.path))).map
          (fun e => alternateUrl e.1 e.2)) := by
  simp [Page.alternateUrls, localePage, Obj.get_set_same]

theorem defaultPage_locale (cfg : I18nConfig) (page : Page) (now : String) :
    (defaultPage cfg page now).locale = JsVal.str cfg.defaultLocale := by
  simp [Page.locale, defaultPage, Obj.get]

theorem defaultPage_alternateUrls (cfg : I18nConfig) (page : Page) (now : String) :
    (defaultPage cfg page now).alternateUrls =
      JsVal.arr
        (((cfg.supportedLanguages.filter (fun o => decide (o ≠ cfg.defaultLocale))).map
          (fun o => (o, localePath o page.path))).map
          (fun e => alternateUrl e.1 e.2)) := by
  simp [Page.alternateUrls, defaultPage, Obj.get]

theorem localePages_locale (cfg : I18nConfig) (clock : Nat → String) (page : Page)
    (k : Nat) (ls : List String) :
    (localePages cfg clock page k ls).map Page.locale = ls.map JsVal.str := by
  induction ls generalizing k with
  | nil => rfl
  | cons l ls ih => simp [localePages, ih, localePage_locale]

theorem mem_localePages (cfg : I18nConfig) (clock : Nat → String) (page : Page)
    (k : Nat) (ls : List String) (q : Page) :
    q ∈ localePages cfg clock page k ls ↔
      ∃ i, ∃ h : i < ls.length, q = localePage cfg page (ls.get ⟨i, h⟩) (clock (k + i)) := by
  induction ls generalizing k with
  | nil => simp [localePages]
  | cons l ls ih =>
    simp only [localePages, List.mem_cons, ih]
    constructor
    · rintro (h | ⟨i, hi, h⟩)
      · exact ⟨0, by simp, by simpa using h⟩
      · refine ⟨i + 1, by simpa using hi, ?_⟩
        rw [h]
        simp [Nat.add_assoc, Nat.add_comm 1 i]
    · rintro ⟨i, hi, h⟩
      cases i with
      | zero => exact Or.inl (by simpa using h)
      | succ j =>
        refine Or.inr ⟨j, by simpa using hi, ?_⟩
        rw [h]
        simp [Nat.add_assoc, Nat.add_comm 1 j]

/-! ## The no-op branch -/

/-- C1: when `page.context.locale` is a non-empty string, `onCreatePage` leaves the
state of the run as it is: it makes no call at all, in particular no `deletePage`
and no `createPage`, so that any page set folded over its calls is unchanged, for
every configuration. -/
theorem onCreatePage_locale_set_noop (cfg : I18nConfig) (clock : Nat → String) (page : Page)
    (s : String) (hs : s ≠ "") (h : page.context.get "locale" = JsVal.str s) :
    (∀ w, onCreatePage cfg clock page w = w) ∧
      emitted cfg clock page = [] ∧
      deletedPages (emitted cfg clock page) = [] ∧
      createdPages (emitted cfg clock page) = [] ∧
      ∀ (σ : Type) (step : σ → Action → σ) (pages : σ),
        (emitted cfg clock page).foldl step pages = pages := by
  have ht : (page.context.get "locale").truthy = true := by
    simp [h, JsVal.truthy, hs]
  have he := emitted_of_locale cfg clock page ht
  refine ⟨?_, he, ?_, ?_, ?_⟩
  · intro w
    simp [onCreatePage, ht]
  · simp [he, deletedPages]
  · simp [he, createdPages]
  · intro σ step pages
    simp [he]

theorem onCreatePage_locale_set_noop_witness :
    emitted exampleConfig exampleClock localisedPage = [] :=
  (onCreatePage_locale_set_noop exampleConfig exampleClock localisedPage "fr" (by decide)
    (by simp [localisedPage, Obj.get])).2.1

/-! ## The fan-out branch: which pages are created -/

/-- C8: with an empty `supportedLanguages`, a page without `context.locale` is
replaced by exactly one page, which has the original path, `context.locale`
equal to `defaultLocale` and an empty `context.alternateUrls`. -/
theorem onCreatePage_no_languages (cfg : I18nConfig) (clock : Nat → String) (page : Page)
    (hempty : cfg.supportedLanguages = [])
    (h : (page.context.get "locale").truthy = false) :
    ∃ q, created cfg clock page = [q] ∧ q.path = page.path ∧
      q.locale = JsVal.str cfg.defaultLocale ∧ q.alternateUrls = JsVal.arr [] := by
  refine ⟨defaultPage cfg page (clock 0), ?_, rfl, defaultPage_locale cfg page _, ?_⟩
  · rw [created_of_no_locale cfg clock page h, hempty]
    rfl
  · rw [defaultPage_alternateUrls, hempty]
    rfl

theorem onCreatePage_no_languages_witness :
    ∃ q, created { exampleConfig with supportedLanguages := [] } exampleClock examplePage = [q] ∧
      q.path = examplePage.path ∧ q.locale = JsVal.str "en" ∧ q.alternateUrls = JsVal.arr [] :=
  onCreatePage_no_languages { exampleConfig with supportedLanguages := [] } exampleClock
    examplePage rfl rfl

theorem created_example :
    created exampleConfig exampleClock examplePage =
      [defaultPage exampleConfig examplePage (exampleClock 0),
        localePage exampleConfig examplePage "en" (exampleClock 1),
        localePage exampleConfig examplePage "fr" (exampleClock 2)] := by
  rw [created_of_no_locale exampleConfig exampleClock examplePage rfl]
  rfl

/-- C2, as stated, fails on the example of the specification: the list
`["en", "fr"]` is duplicate-free and contains the default locale `"en"`, yet three
pages are created, at `/about`, `/en/about` and `/fr/about`, and two of them have
`context.locale` equal to `"en"`. -/
theorem onCreatePage_count_counterexample :
    exampleConfig.supportedLanguages.Nodup ∧
      exampleConfig.defaultLocale ∈ exampleConfig.supportedLanguages ∧
      (examplePage.context.get "locale").truthy = false ∧
      (created exampleConfig exampleClock examplePage).map Page.path =
        ["/about", "/en/about", "/fr/about"] ∧
      (created exampleConfig exampleClock examplePage).map Page.locale =
        [JsVal.str "en", JsVal.str "en", JsVal.str "fr"] ∧
      (created exampleConfig exampleClock examplePage).length ≠
        exampleConfig.supportedLanguages.length ∧
      ¬ ((created exampleConfig exampleClock examplePage).map Page.locale).Nodup := by
  have hp : (created exampleConfig exampleClock examplePage).map Page.path =
      ["/about", "/en/about", "/fr/about"] := by
    rw [created_example]
    decide
  have hl : (created exampleConfig exampleClock examplePage).map Page.locale =
      [JsVal.str "en", JsVal.str "en", JsVal.str "fr"] := by
    rw [created_example]
    simp [localePage_locale, defaultPage_locale, exampleConfig]
  refine ⟨by decide, by decide, rfl, hp, hl, ?_, ?_⟩
  · rw [created_example]
    decide
  · rw [hl]
    simp

/-- C2, amended: a page without `context.locale` is replaced by
`|supportedLanguages| + 1` pages; their `context.locale` values are, in order,
`defaultLocale` and then the entries of `supportedLanguages`, so they cover exactly
the default and the supported locales; for a duplicate-free `supportedLanguages`
the paths are pairwise distinct, and the locales are pairwise distinct exactly
when `defaultLocale` is not listed in `supportedLanguages`. -/
theorem onCreatePage_created_count (cfg : I18nConfig) (clock : Nat → String) (page : Page)
    (h : (page.context.get "locale").truthy = false) :
    (created cfg clock page).length = cfg.supportedLanguages.length + 1 ∧
      (created cfg clock page).map Page.locale =
        (cfg.defaultLocale :: cfg.supportedLanguages).map JsVal.str ∧
      (∀ l, JsVal.str l ∈ (created cfg clock page).map Page.locale ↔
        l = cfg.defaultLocale ∨ l ∈ cfg.supportedLanguages) ∧
      (cfg.supportedLanguages.Nodup → ((created cfg clock page).map Page.path).Nodup) ∧
      (cfg.supportedLanguages.Nodup →
        (((created cfg clock page).map Page.locale).Nodup ↔
          cfg.defaultLocale ∉ cfg.supportedLanguages)) := by
  have hc := created_of_no_locale cfg clock page h
  have hinj : Function.Injective JsVal.str := fun a b hab => JsVal.str.inj hab
  have hloc : (created cfg clock page).map Page.locale =
      (cfg.defaultLocale :: cfg.supportedLanguages).map JsVal.str := by
    rw [hc]
    simp [defaultPage_locale, localePages_locale]
  refine ⟨?_, hloc, ?_, ?_, ?_⟩
  · rw [hc]
    simp [localePages_length]
  · intro l
    rw [hloc]
    simp [hinj.eq_iff]
  · intro hnd
    rw [hc, List.map_cons, localePages_path, List.nodup_cons]
    constructor
    · intro hmem
      obtain ⟨l, _, hl⟩ := List.mem_map.mp hmem
      exact localePath_ne_self l page.path hl
    · exact hnd.map (fun a b hab => localePath_injective a b page.path hab)
  · intro hnd
    rw [hloc, List.nodup_map_iff hinj, List.nodup_cons]
    exact ⟨fun hh => hh.1, fun hh => ⟨hh, hnd⟩⟩

theorem onCreatePage_created_count_witness :
    (created exampleConfig exampleClock examplePage).length = 2 + 1 :=
  (onCreatePage_created_count exampleConfig exampleClock examplePage rfl).1

/-! ## The fan-out branch: routes -/

/-- C3, as stated, fails on the example of the specification: the page created
for the entry `"en"` of `supportedLanguages` has `context.locale` equal to the
default locale and the path `/en/about`, not `/about`. -/
theorem onCreatePage_default_path_counterexample :
    ¬ (∀ q ∈ created exampleConfig exampleClock examplePage, ∀ l, q.locale = JsVal.str l →
        (l = exampleConfig.defaultLocale → q.path = examplePage.path) ∧
        (l ≠ exampleConfig.defaultLocale → q.path = localePath l examplePage.path)) := by
  intro hall
  have hq := hall (localePage exampleConfig examplePage "en" (exampleClock 1))
    (by rw [created_example]; simp) "en" (localePage_locale _ _ _ _)
  exact localePath_ne_self "en" examplePage.path (hq.1 rfl)

/-- C3, amended: among the pages that replace a page without `context.locale`,
one with `context.locale` equal to `defaultLocale` has the original path or, only
when `defaultLocale` is listed in `supportedLanguages`, the path
`"/" + defaultLocale + originalPath`; one with any other locale `l` has the path
`"/" + l + originalPath`; and the page at the original path is always created,
with `context.locale` equal to `defaultLocale`. -/
theorem onCreatePage_paths (cfg : I18nConfig) (clock : Nat → String) (page : Page)
    (h : (page.context.get "locale").truthy = false) :
    (∀ q ∈ created cfg clock page, ∀ l, q.locale = JsVal.str l →
        (l = cfg.defaultLocale →
          q.path = page.path ∨
            (cfg.defaultLocale ∈ cfg.supportedLanguages ∧
              q.path = localePath cfg.defaultLocale page.path)) ∧
        (l ≠ cfg.defaultLocale → q.path = localePath l page.path)) ∧
      (∃ q ∈ created cfg clock page,
        q.locale = JsVal.str cfg.defaultLocale ∧ q.path = page.path) := by
  have hc := created_of_no_locale cfg clock page h
  constructor
  · intro q hq l hl
    rw [hc, List.mem_cons] at hq
    rcases hq with hq | hq
    · subst hq
      rw [defaultPage_locale] at hl
      have hl2 : cfg.defaultLocale = l := JsVal.str.inj hl
      exact ⟨fun _ => Or.inl rfl, fun hne => absurd hl2.symm hne⟩
    · obtain ⟨i, hi, hqi⟩ := (mem_localePages cfg clock page 1 _ q).mp hq
      subst hqi
      rw [localePage_locale] at hl
      have hl2 : cfg.supportedLanguages.get ⟨i, hi⟩ = l := JsVal.str.inj hl
      refine ⟨fun hd => Or.inr ⟨?_, ?_⟩, fun _ => ?_⟩
      · rw [← hd, ← hl2]
        exact List.get_mem _ _ _
      · rw [← hd, ← hl2]
        rfl
      · rw [← hl2]
        rfl
  · exact ⟨defaultPage cfg page (clock 0), by rw [hc]; exact List.mem_cons_self _ _,
      defaultPage_locale cfg page _, rfl⟩

theorem onCreatePage_paths_witness :
    ∃ q ∈ created exampleConfig exampleClock examplePage,
      q.locale = JsVal.str "en" ∧ q.path = "/about" :=
  (onCreatePage_paths exampleConfig exampleClock examplePage rfl).2

/-! ## The fan-out branch: order of the calls -/

/-- C10, as stated, fails on the example of the specification: after the
`deletePage` and the `createPage` of the page at `/about`, the hook creates a page
for each of `"en"` and `"fr"`, not only for the non-default locale `"fr"`. -/
theorem onCreatePage_calls_counterexample :
    ¬ (∃ (d : Page) (rest : List Page),
        emitted exampleConfig exampleClock examplePage =
          Action.deletePage examplePage :: Action.createPage d :: rest.map Action.createPage ∧
        d.path = examplePage.path ∧
        rest.map Page.path =
          (exampleConfig.supportedLanguages.filter
            (fun l => decide (l ≠ exampleConfig.defaultLocale))).map
            (fun l => localePath l examplePage.path)) := by
  rintro ⟨d, rest, h1, _, h3⟩
  have hc : created exampleConfig exampleClock examplePage = d :: rest := by
    unfold created
    rw [h1]
    simp [createdPages, createdPages_map_createPage]
  have hlen := congrArg List.length hc
  rw [created_example] at hlen
  have h3len := congrArg List.length h3
  have hf : (exampleConfig.supportedLanguages.filter
      (fun l => decide (l ≠ exampleConfig.defaultLocale))).length = 1 := by decide
  simp only [List.length_map, hf, List.length_cons, List.length_nil] at h3len hlen
  omega

/-- C10, amended: for a page without `context.locale` the calls are, in order, one
`deletePage` of the original page, the `createPage` of the default-locale page at
the original path, and one `createPage` per entry of `supportedLanguages` (the
default locale included when it is listed), in declaration order, at the path
`"/" + l + originalPath` with `context.locale = l`, and nothing else. -/
theorem onCreatePage_calls (cfg : I18nConfig) (clock : Nat → String) (page : Page)
    (h : (page.context.get "locale").truthy = false) :
    ∃ (d : Page) (rest : List Page),
      emitted cfg clock page =
        Action.deletePage page :: Action.createPage d :: rest.map Action.createPage ∧
      deletedPages (emitted cfg clock page) = [page] ∧
      d.path = page.path ∧
      d.locale = JsVal.str cfg.defaultLocale ∧
      rest.map Page.path = cfg.supportedLanguages.map (fun l => localePath l page.path) ∧
      rest.map Page.locale = cfg.supportedLanguages.map JsVal.str := by
  refine ⟨defaultPage cfg page (clock 0), localePages cfg clock page 1 cfg.supportedLanguages,
    emitted_of_no_locale cfg clock page h, ?_, rfl, defaultPage_locale cfg page _,
    localePages_path cfg clock page 1 _, localePages_locale cfg clock page 1 _⟩
  rw [emitted_of_no_locale cfg clock page h]
  simp [deletedPages, deletedPages_map_createPage]

theorem onCreatePage_calls_witness :
    ∃ (d : Page) (rest : List Page),
      emitted exampleConfig exampleClock examplePage =
        Action.deletePage examplePage :: Action.createPage d :: rest.map Action.createPage ∧
      deletedPages (emitted exampleConfig exampleClock examplePage) = [examplePage] ∧
      d.path = "/about" ∧
      d.locale = JsVal.str "en" ∧
      rest.map Page.path = ["/en/about", "/fr/about"] ∧
      rest.map Page.locale = [JsVal.str "en", JsVal.str "fr"] :=
  onCreatePage_calls exampleConfig exampleClock examplePage rfl

/-! ## The fan-out branch: alternate URLs -/

theorem alternateUrls_entries_injective (es fs : List (String × String))
    (h : JsVal.arr (es.map (fun e => alternateUrl e.1 e.2)) =
      JsVal.arr (fs.map (fun e => alternateUrl e.1 e.2))) : es = fs := by
  have h2 : es.map (fun e => alternateUrl e.1 e.2) = fs.map (fun e => alternateUrl e.1 e.2) :=
    JsVal.arr.inj h
  exact List.map_injective_iff.mpr (fun a b hab => alternateUrl_injective a b hab) h2

theorem localePages_resolve (cfg : I18nConfig) (clock : Nat → String) (page : Page)
    (k : Nat) (ls : List String) (o : String) (ho : o ∈ ls) :
    ∃ q ∈ localePages cfg clock page k ls,
      q.path = localePath o page.path ∧ q.locale = JsVal.str o := by
  obtain ⟨⟨i, hi⟩, hio⟩ := List.mem_iff_get.mp ho
  exact ⟨localePage cfg page o (clock (k + i)),
    (mem_localePages cfg clock page k ls _).mpr ⟨i, hi, by rw [hio]⟩, rfl,
    localePage_locale cfg page o _⟩

/-- C4, as stated, fails when `supportedLanguages` does not list the default
locale: with `supportedLanguages = ["fr"]` and `defaultLocale = "en"` the page
created at `/fr/about` has an empty `alternateUrls`, so no entry for `"en"`. -/
theorem onCreatePage_alternates_counterexample :
    ¬ (∀ q ∈ created frenchOnlyConfig exampleClock examplePage, ∀ l, q.locale = JsVal.str l →
        ∃ entries : List (String × String),
          q.alternateUrls = JsVal.arr (entries.map (fun e => alternateUrl e.1 e.2)) ∧
          (∀ e ∈ entries, e.1 ≠ l) ∧
          ∀ o, (o = frenchOnlyConfig.defaultLocale ∨ o ∈ frenchOnlyConfig.supportedLanguages) →
            o ≠ l → (entries.map Prod.fst).count o = 1) := by
  intro hall
  have hmem : localePage frenchOnlyConfig examplePage "fr" (exampleClock 1) ∈
      created frenchOnlyConfig exampleClock examplePage := by
    rw [created_of_no_locale frenchOnlyConfig exampleClock examplePage rfl]
    simp [frenchOnlyConfig, localePages]
  obtain ⟨entries, he, _, hcount⟩ := hall _ hmem "fr" (localePage_locale _ _ _ _)
  have hnil : entries = [] := by
    have h0 : (localePage frenchOnlyConfig examplePage "fr" (exampleClock 1)).alternateUrls =
        JsVal.arr (([] : List (String × String)).map (fun e => alternateUrl e.1 e.2)) := by
      rw [localePage_alternateUrls]
      simp [frenchOnlyConfig]
    exact alternateUrls_entries_injective _ _ (he.symm.trans h0)
  have h1 := hcount "en" (Or.inl rfl) (by decide)
  rw [hnil] at h1
  simp at h1

/-- C4, amended: when `supportedLanguages` is duplicate-free and is empty or lists
`defaultLocale`, every page that replaces a page without `context.locale` has an
`alternateUrls` list whose entries are, in declaration order, the supported
locales other than the page's own: no entry for its own `context.locale` and
exactly one entry for every other locale of the site. -/
theorem onCreatePage_alternates (cfg : I18nConfig) (clock : Nat → String) (page : Page)
    (h : (page.context.get "locale").truthy = false)
    (hnd : cfg.supportedLanguages.Nodup)
    (hdef : cfg.supportedLanguages = [] ∨ cfg.defaultLocale ∈ cfg.supportedLanguages) :
    ∀ q ∈ created cfg clock page, ∀ l, q.locale = JsVal.str l →
      ∃ entries : List (String × String),
        q.alternateUrls = JsVal.arr (entries.map (fun e => alternateUrl e.1 e.2)) ∧
        entries.map Prod.fst = cfg.supportedLanguages.filter (fun o => decide (o ≠ l)) ∧
        (∀ e ∈ entries, e.1 ≠ l) ∧
        ∀ o, (o = cfg.defaultLocale ∨ o ∈ cfg.supportedLanguages) →
          o ≠ l → (entries.map Prod.fst).count o = 1 := by
  intro q hq l hl
  have key : ∀ (path : String → String), cfg.defaultLocale ∈ cfg.supportedLanguages ∨
        l = cfg.defaultLocale →
      ((cfg.supportedLanguages.filter (fun o => decide (o ≠ l))).map (fun o => (o, path o))).map
          Prod.fst = cfg.supportedLanguages.filter (fun o => decide (o ≠ l)) ∧
        (∀ e ∈ (cfg.supportedLanguages.filter (fun o => decide (o ≠ l))).map
            (fun o => (o, path o)), e.1 ≠ l) ∧
        ∀ o, (o = cfg.defaultLocale ∨ o ∈ cfg.supportedLanguages) → o ≠ l →
          (((cfg.supportedLanguages.filter (fun o => decide (o ≠ l))).map
            (fun o => (o, path o))).map Prod.fst).count o = 1 := by
    intro path hsite
    have hfst : ((cfg.supportedLanguages.filter (fun o => decide (o ≠ l))).map
        (fun o => (o, path o))).map Prod.fst =
        cfg.supportedLanguages.filter (fun o => decide (o ≠ l)) := by
      rw [List.map_map]
      exact List.map_id _
    refine ⟨hfst, ?_, ?_⟩
    · intro e he
      obtain ⟨o, ho, rfl⟩ := List.mem_map.mp he
      simpa using (List.mem_filter.mp ho).2
    · intro o hsite_o hol
      rw [hfst]
      have ho : o ∈ cfg.supportedLanguages := by
        rcases hsite_o with hd | hs
        · rcases hsite with hin | hld
          · exact hd ▸ hin
          · exact absurd (hd.trans hld.symm) hol
        · exact hs
      exact List.count_eq_one_of_mem (hnd.filter _)
        (List.mem_filter.mpr ⟨ho, by simpa using hol⟩)
  rw [created_of_no_locale cfg clock page h, List.mem_cons] at hq
  rcases hq with hq | hq
  · subst hq
    rw [defaultPage_locale] at hl
    have hl2 : cfg.defaultLocale = l := JsVal.str.inj hl
    subst hl2
    exact ⟨_, defaultPage_alternateUrls cfg page _, key _ (Or.inr rfl)⟩
  · obtain ⟨i, hi, hqi⟩ := (mem_localePages cfg clock page 1 _ q).mp hq
    subst hqi
    rw [localePage_locale] at hl
    have hl2 : cfg.supportedLanguages.get ⟨i, hi⟩ = l := JsVal.str.inj hl
    have hne : cfg.supportedLanguages ≠ [] := by
      intro hnil
      rw [hnil] at hi
      exact absurd hi (by simp)
    have hin : cfg.defaultLocale ∈ cfg.supportedLanguages := hdef.resolve_left hne
    rw [hl2]
    exact ⟨_, localePage_alternateUrls cfg page l _, key _ (Or.inl hin)⟩

theorem onCreatePage_alternates_witness :
    ∃ entries : List (String × String),
      (localePage exampleConfig examplePage "fr" (exampleClock 2)).alternateUrls =
        JsVal.arr (entries.map (fun e => alternateUrl e.1 e.2)) ∧
      entries.map Prod.fst = ["en"] ∧
      (entries.map Prod.fst).count "en" = 1 := by
  obtain ⟨entries, h1, h2, _, h4⟩ :=
    onCreatePage_alternates exampleConfig exampleClock examplePage rfl (by decide)
      (Or.inr (by decide)) (localePage exampleConfig examplePage "fr" (exampleClock 2))
      (by rw [created_example]; simp) "fr" (localePage_locale _ _ _ _)
  exact ⟨entries, h1, h2, h4 "en" (Or.inl rfl) (by decide)⟩

/-- C5: every `alternateUrls` entry of every page that replaces a page without
`context.locale` resolves: a page created by the same call has the entry's path
and has the entry's locale as `context.locale`. -/
theorem onCreatePage_links_resolve (cfg : I18nConfig) (clock : Nat → String)
    (page : Page) (h : (page.context.get "locale").truthy = false) :
    ∀ q ∈ created cfg clock page,
      ∃ entries : List (String × String),
        q.alternateUrls = JsVal.arr (entries.map (fun e => alternateUrl e.1 e.2)) ∧
        ∀ e ∈ entries, ∃ r ∈ created cfg clock page,
          r.path = e.2 ∧ r.locale = JsVal.str e.1 := by
  intro q hq
  have hc := created_of_no_locale cfg clock page h
  have hloc : ∀ o ∈ cfg.supportedLanguages, ∃ r ∈ created cfg clock page,
      r.path = localePath o page.path ∧ r.locale = JsVal.str o := by
    intro o ho
    obtain ⟨r, hr, hr2⟩ := localePages_resolve cfg clock page 1 _ o ho
    exact ⟨r, by rw [hc]; exact List.mem_cons_of_mem _ hr, hr2⟩
  have hdefault : ∃ r ∈ created cfg clock page,
      r.path = page.path ∧ r.locale = JsVal.str cfg.defaultLocale :=
    ⟨defaultPage cfg page (clock 0), by rw [hc]; exact List.mem_cons_self _ _, rfl,
      defaultPage_locale cfg page _⟩
  rw [hc, List.mem_cons] at hq
  rcases hq with hq | hq
  · subst hq
    refine ⟨_, defaultPage_alternateUrls cfg page _, ?_⟩
    intro e he
    obtain ⟨o, ho, rfl⟩ := List.mem_map.mp he
    exact hloc o (List.mem_filter.mp ho).1
  · obtain ⟨i, hi, hqi⟩ := (mem_localePages cfg clock page 1 _ q).mp hq
    subst hqi
    refine ⟨_, localePage_alternateUrls cfg page _ _, ?_⟩
    intro e he
    obtain ⟨o, ho, rfl⟩ := List.mem_map.mp he
    by_cases hod : o = cfg.defaultLocale
    · simpa [hod] using hdefault
    · simpa [hod] using hloc o (List.mem_filter.mp ho).1

theorem onCreatePage_links_resolve_witness :
    ∃ entries : List (String × String),
      (defaultPage exampleConfig examplePage (exampleClock 0)).alternateUrls =
        JsVal.arr (entries.map (fun e => alternateUrl e.1 e.2)) ∧
      ∀ e ∈ entries, ∃ r ∈ created exampleConfig exampleClock examplePage,
        r.path = e.2 ∧ r.locale = JsVal.str e.1 :=
  onCreatePage_links_resolve exampleConfig exampleClock examplePage rfl
    (defaultPage exampleConfig examplePage (exampleClock 0))
    (by rw [created_example]; simp)

/-! ## The fan-out branch: contexts -/

/-- C6, on the code: for the page `/about` whose context holds `layout = "wide"`,
the page created at the original path has no `layout` in its context, while
the pages created at `/en/about` and `/fr/about` keep it; the context literal of
lines 124-136 does not spread `page.context`, the one of lines 142-155 does. -/
theorem onCreatePage_default_context_dropped :
    contextPage.context.get "layout" = JsVal.str "wide" ∧
      (created exampleConfig exampleClock contextPage).map Page.path =
        ["/about", "/en/about", "/fr/about"] ∧
      (created exampleConfig exampleClock contextPage).map (fun q => q.context.get "layout") =
        [JsVal.undefined, JsVal.str "wide", JsVal.str "wide"] := by
  have hc := created_of_no_locale exampleConfig exampleClock contextPage rfl
  refine ⟨rfl, ?_, ?_⟩
  · rw [hc]
    decide
  · rw [hc]
    simp [exampleConfig, localePages, localePage, defaultPage, Obj.get, Obj.set, contextPage]

/-- C7: for a page without `context.locale`, a created page whose path is
`"/" + l + originalPath` was created for an entry `l` of `supportedLanguages`; it
keeps every page field other than `path` and `context`, and its context is the
original context overridden with `locale = l`, `urlPath = originalPath`,
`contentfulLocale = contentfulLocale[l]`, `lastModified` = the clock reading taken
for this page, and `alternateUrls` = one entry per supported locale `o` other
than `l`, in declaration order, with the original path when `o` is the default
locale and `"/" + o + originalPath` otherwise.  Such a page is created for every
entry of `supportedLanguages`. -/
theorem onCreatePage_locale_page (cfg : I18nConfig) (clock : Nat → String) (page : Page)
    (h : (page.context.get "locale").truthy = false) :
    (∀ q ∈ created cfg clock page, ∀ l, q.path = localePath l page.path →
      ∃ i, ∃ hi : i < cfg.supportedLanguages.length,
        cfg.supportedLanguages.get ⟨i, hi⟩ = l ∧
        q.rest = page.rest ∧
        ∀ key, q.context.get key =
          if key = "alternateUrls" then
            JsVal.arr
              ((cfg.supportedLanguages.filter (fun o => decide (o ≠ l))).map
                (fun o =>
                  alternateUrl o
                    (if o = cfg.defaultLocale then page.path else localePath o page.path)))
          else if key = "lastModified" then JsVal.str (clock (i + 1))
          else if key = "contentfulLocale" then cfg.contentfulLocale.get l
          else if key = "urlPath" then JsVal.str page.path
          else if key = "locale" then JsVal.str l
          else page.context.get key) ∧
      (∀ l ∈ cfg.supportedLanguages, ∃ q ∈ created cfg clock page,
        q.path = localePath l page.path) := by
  have hc := created_of_no_locale cfg clock page h
  constructor
  · intro q hq l hpath
    rw [hc, List.mem_cons] at hq
    rcases hq with hq | hq
    · subst hq
      exact absurd hpath.symm (localePath_ne_self l page.path)
    · obtain ⟨i, hi, hqi⟩ := (mem_localePages cfg clock page 1 _ q).mp hq
      subst hqi
      have hl : cfg.supportedLanguages.get ⟨i, hi⟩ = l :=
        localePath_injective _ _ page.path hpath
      refine ⟨i, hi, hl, rfl, ?_⟩
      intro key
      rw [hl, Nat.add_comm 1 i]
      by_cases h1 : key = "alternateUrls"
      · subst h1
        simp [localePage, Obj.get_set_same]
      by_cases h2 : key = "lastModified"
      · subst h2
        simp [localePage, Obj.get_set_same, Obj.get_set_other]
      by_cases h3 : key = "contentfulLocale"
      · subst h3
        simp [localePage, Obj.get_set_same, Obj.get_set_other]
      by_cases h4 : key = "urlPath"
      · subst h4
        simp [localePage, Obj.get_set_same, Obj.get_set_other]
      by_cases h5 : key = "locale"
      · subst h5
        simp [localePage, Obj.get_set_same, Obj.get_set_other]
      simp only [h1, h2, h3, h4, h5, if_false, localePage]
      rw [Obj.get_set_other _ _ _ _ (Ne.symm h1), Obj.get_set_other _ _ _ _ (Ne.symm h2),
        Obj.get_set_other _ _ _ _ (Ne.symm h3), Obj.get_set_other _ _ _ _ (Ne.symm h4),
        Obj.get_set_other _ _ _ _ (Ne.symm h5)]
  · intro l hl
    obtain ⟨r, hr, hr2⟩ := localePages_resolve cfg clock page 1 _ l hl
    exact ⟨r, by rw [hc]; exact List.mem_cons_of_mem _ hr, hr2.1⟩

theorem onCreatePage_locale_page_witness :
    ∃ i, ∃ hi : i < exampleConfig.supportedLanguages.length,
      exampleConfig.supportedLanguages.get ⟨i, hi⟩ = "fr" ∧
      (localePage exampleConfig contextPage "fr" (exampleClock 2)).rest = contextPage.rest ∧
      (localePage exampleConfig contextPage "fr" (exampleClock 2)).context.get "layout" =
        JsVal.str "wide" ∧
      (localePage exampleConfig contextPage "fr" (exampleClock 2)).context.get "locale" =
        JsVal.str "fr" := by
  obtain ⟨i, hi, h1, h2, h3⟩ :=
    (onCreatePage_locale_page exampleConfig exampleClock contextPage rfl).1
      (localePage exampleConfig contextPage "fr" (exampleClock 2))
      (by rw [created_of_no_locale exampleConfig exampleClock contextPage rfl]
          simp [exampleConfig, localePages, exampleClock])
      "fr" rfl
  exact ⟨i, hi, h1, h2, (h3 "layout").trans (by simp [contextPage, Obj.get]),
    (h3 "locale").trans (by simp)⟩

/-! ## The query guard of `createPages` -/

/-- C9: when `result.errors` is truthy, `createPages` logs the errors, rejects
with them and calls no page-creation helper; when it is falsy, nothing is logged,
a rejection can only come from reading `result.data.docs.edges` or from
`createDocsPages`, and if neither raises the promise resolves after the single
helper call `createDocsPages`. -/
theorem createPages_query_errors (runHelper : Helper → JsVal → Option Thrown)
    (result : QueryResult) :
    (result.errors.truthy = true →
      createPages runHelper result =
        ([Event.consoleLog result.errors], Settled.rejected (Thrown.value result.errors)) ∧
      ∀ helper arg, Event.helperCall helper arg ∉ (createPages runHelper result).1) ∧
    (result.errors.truthy = false →
      (∀ v, Event.consoleLog v ∉ (createPages runHelper result).1) ∧
      (∀ reason, (createPages runHelper result).2 = Settled.rejected reason →
        result.data.prop "docs" = Except.error reason ∨
        (∃ connection, result.data.prop "docs" = Except.ok connection ∧
          (connection.prop "edges" = Except.error reason ∨
            ∃ docs, connection.prop "edges" = Except.ok docs ∧
              runHelper Helper.createDocsPages docs = some reason))) ∧
      ∀ connection docs, result.data.prop "docs" = Except.ok connection →
        connection.prop "edges" = Except.ok docs →
        runHelper Helper.createDocsPages docs = none →
        createPages runHelper result =
          ([Event.helperCall Helper.createDocsPages docs], Settled.resolved)) := by
  constructor
  · intro ht
    have hcp : createPages runHelper result =
        ([Event.consoleLog result.errors], Settled.rejected (Thrown.value result.errors)) := by
      simp [createPages, ht]
    refine ⟨hcp, ?_⟩
    intro helper arg
    rw [hcp]
    simp
  · intro hf
    refine ⟨?_, ?_, ?_⟩
    · intro v
      cases hd : result.data.prop "docs" with
      | error e => simp [createPages, hf, hd]
      | ok connection =>
        cases he : connection.prop "edges" with
        | error e => simp [createPages, hf, hd, he]
        | ok docs =>
          cases hh : runHelper Helper.createDocsPages docs <;>
            simp [createPages, hf, hd, he, hh]
    · intro reason
      cases hd : result.data.prop "docs" with
      | error e =>
        intro hr
        simp [createPages, hf, hd] at hr
        exact Or.inl (by rw [hr])
      | ok connection =>
        cases he : connection.prop "edges" with
        | error e =>
          intro hr
          simp [createPages, hf, hd, he] at hr
          exact Or.inr ⟨connection, rfl, Or.inl (by rw [he, hr])⟩
        | ok docs =>
          cases hh : runHelper Helper.createDocsPages docs with
          | none =>
            intro hr
            simp [createPages, hf, hd, he, hh] at hr
          | some e =>
            intro hr
            simp [createPages, hf, hd, he, hh] at hr
            exact Or.inr ⟨connection, rfl, Or.inr ⟨docs, he, by rw [hh, hr]⟩⟩
    · intro connection docs hd he hh
      simp [createPages, hf, hd, he, hh]

theorem createPages_query_errors_witness :
    createPages quietHelpers failedResult =
        ([Event.consoleLog failedResult.errors],
          Settled.rejected (Thrown.value failedResult.errors)) ∧
      createPages quietHelpers emptyDocsResult =
        ([Event.helperCall Helper.createDocsPages (JsVal.arr [])], Settled.resolved) :=
  ⟨((createPages_query_errors quietHelpers failedResult).1 rfl).1,
    ((createPages_query_errors quietHelpers emptyDocsResult).2 rfl).2.2
      (JsVal.obj [("edges", JsVal.arr [])]) (JsVal.arr []) rfl rfl rfl⟩

end GatsbyNode
